import Mathlib

/-!
Shallow embedding of the trading-strategy simulator (src/strategy.py).

Numbers (Python floats) are modelled as rationals.  The Instrument object is
modelled by passing its current price and timestamp explicitly as arguments
(price : Rat, time : Nat) to every update call, since within one tick each
subroutine reads the same inst.price / inst.ts.  Python list histories built
by append / read by [-1] are modelled newest-first: append becomes cons and
xs[-1] becomes xs.headI (all histories are nonempty by construction).
-/

/-- Python's int() applied to a rational: truncation toward zero
(floor for nonnegative values, ceiling for negative ones). -/
def pyInt (q : ℚ) : ℤ :=
  if 0 ≤ q then ⌊q⌋ else ⌈q⌉

/-- Which branch of ThresholdControl.update is taken on a given call. -/
inductive TCBranch where
  | winning : TCBranch
  | losing : TCBranch
  | noAction : TCBranch
  deriving DecidableEq

/-- State of the ThresholdControl subroutine (class ThresholdControl). -/
structure ThresholdControl where
  prices : List ℚ
  funds : List ℚ
  units : List ℚ
  total0 : ℚ
  times : List ℕ
  winningPer : ℚ
  losingPer : ℚ
  sellingPerWin : ℚ
  sellingPerLose : ℚ
  deriving DecidableEq

/-- The state built by ThresholdControl.__init__ once validation has passed:
singleton histories and total0 = fund + unit * price. -/
def tcOf (price : ℚ) (time : ℕ) (fund unit winningPer losingPer sellingPerWin sellingPerLose : ℚ) :
    ThresholdControl :=
  { prices := [price], funds := [fund], units := [unit],
    total0 := fund + unit * price, times := [time],
    winningPer := winningPer, losingPer := losingPer,
    sellingPerWin := sellingPerWin, sellingPerLose := sellingPerLose }

/-- ThresholdControl.__init__ with its validation: raises (none) when
winningPer > 1, losingPer > 1, or sellingPerWin > 1 or sellingPerLose > 1,
in that order; otherwise returns the constructed state. -/
def tcMk (price : ℚ) (time : ℕ) (fund unit winningPer losingPer sellingPerWin sellingPerLose : ℚ) :
    Option ThresholdControl :=
  if winningPer > 1 then none
  else if losingPer > 1 then none
  else if sellingPerWin > 1 ∨ sellingPerLose > 1 then none
  else some (tcOf price time fund unit winningPer losingPer sellingPerWin sellingPerLose)

/-- ThresholdControl.update(fundIn, deltaUnit): returns the signed override
delta (0 for no action) and the successor state. -/
def ThresholdControl.update (tc0 : ThresholdControl) (fundIn deltaUnit price : ℚ) (time : ℕ) :
    ℚ × ThresholdControl :=
  let tc := { tc0 with prices := price :: tc0.prices, times := time :: tc0.times }
  let fund := fundIn
  let unit := tc.units.headI + deltaUnit
  if unit = 0 then (0, tc)
  else
    let total := fund + unit * price
    let gain := total - tc.total0
    if gain ≥ 0 ∧ gain / tc.total0 ≥ tc.winningPer then
      let s0 := |unit| * tc.sellingPerWin
      let s1 := if s0 ≥ |unit| then |unit| else s0
      let sellingUnit := if unit > 0 then -s1 else s1
      (sellingUnit,
        { tc with units := (unit + sellingUnit) :: tc.units,
                  funds := (fund + sellingUnit * price) :: tc.funds })
    else if gain ≤ 0 ∧ |gain / tc.total0| ≥ tc.losingPer then
      let s0 := |unit| * tc.sellingPerLose
      let s1 := if s0 ≥ |unit| then |unit| else s0
      let sellingUnit := if unit > 0 then -s1 else s1
      (sellingUnit,
        { tc with units := (unit + sellingUnit) :: tc.units,
                  funds := (fund + sellingUnit * price) :: tc.funds })
    else
      (0, { tc with funds := fund :: tc.funds, units := unit :: tc.units })

/-- Which branch ThresholdControl.update takes, mirroring its if chain. -/
def ThresholdControl.branch (tc : ThresholdControl) (fundIn deltaUnit price : ℚ) : TCBranch :=
  let unit := tc.units.headI + deltaUnit
  if unit = 0 then TCBranch.noAction
  else
    let gain := fundIn + unit * price - tc.total0
    if gain ≥ 0 ∧ gain / tc.total0 ≥ tc.winningPer then TCBranch.winning
    else if gain ≤ 0 ∧ |gain / tc.total0| ≥ tc.losingPer then TCBranch.losing
    else TCBranch.noAction

/-- State of the Chasing subroutine (class Chasing).  The stack counter is a
Python int starting at 0 and only ever incremented, hence a Nat. -/
structure Chasing where
  mode : String
  trend : ℤ
  prices : List ℚ
  times : List ℕ
  total : ℚ
  direction : ℤ
  high : ℚ
  low : ℚ
  init : ℚ
  inc : ℚ
  safetyamount : ℚ
  stack : ℕ
  buysell : ℤ
  upper_limit : ℚ
  lower_limit : ℚ
  gap : ℚ
  nextStepUp : ℚ
  nextStepDown : ℚ
  deriving DecidableEq

/-- Chasing.__init__ for a supported mode string: any trend other than -1 is
normalized to 1; step thresholds start one gap away from the current price. -/
def chasingMk (price : ℚ) (time : ℕ) (unit : ℚ) (trend : ℤ) (mode : String)
    (gap upper_limit lower_limit init inc safetyamount : ℚ) : Chasing :=
  { mode := mode, trend := if trend ≠ -1 then 1 else trend,
    prices := [price], times := [time], total := price * unit,
    direction := 0, high := -10000, low := 10000,
    init := init, inc := inc, safetyamount := safetyamount,
    stack := 0, buysell := 0,
    upper_limit := upper_limit, lower_limit := lower_limit, gap := gap,
    nextStepUp := price + gap, nextStepDown := price - gap }

/-- The trade-decision tail of Chasing.update(), applied to the state in
which the price/time histories, reversal extrema and direction have already
been recorded for this tick; direction is the tick price direction. -/
def Chasing.trade (c : Chasing) (direction : ℤ) (price : ℚ) : ℚ × Chasing :=
  if c.mode = "chase" then
        if c.trend = 1 then
          let c := if price ≥ c.nextStepUp then { c with buysell := 1 } else c
          if price ≥ c.nextStepUp + c.upper_limit then
            if c.buysell = 1 then
              let amount := c.init - (c.stack : ℚ) * c.inc
              if amount ≤ 0 then
                (0, { c with nextStepUp := price + c.gap, buysell := 0 })
              else
                (amount, { c with stack := c.stack + 1,
                                  nextStepUp := price + c.gap, buysell := 0 })
            else (0, c)
          else if price ≤ c.nextStepUp - c.lower_limit then (0, { c with buysell := 0 })
          else (0, c)
        else
          let c := if price ≤ c.nextStepDown then { c with buysell := -1 } else c
          if price ≤ c.nextStepDown - c.lower_limit then
            if c.buysell = -1 then
              let amount := -(c.init - (c.stack : ℚ) * c.inc)
              if amount ≥ 0 then
                (0, { c with nextStepDown := price - c.gap, buysell := 0 })
              else
                (amount, { c with stack := c.stack + 1,
                                  nextStepDown := price - c.gap, buysell := 0 })
            else (0, c)
          else if price ≥ c.nextStepDown + c.upper_limit then (0, { c with buysell := 0 })
          else (0, c)
      else
        if c.trend = 1 then
          if c.buysell = 0 then
            if price ≥ c.nextStepUp then
              (0, { c with buysell := -1,
                           nextStepUp := price + c.gap, nextStepDown := price - c.gap })
            else if price ≤ c.nextStepDown then
              (0, { c with buysell := -1, nextStepDown := price - c.gap })
            else (0, c)
          else if c.buysell = -1 ∧ direction = -1 ∧ c.high - price ≥ c.lower_limit then
            (-c.safetyamount, { c with buysell := 0 })
          else (0, c)
        else
          if c.buysell = 0 then
            if price ≤ c.nextStepDown then
              (0, { c with buysell := 1,
                           nextStepUp := price + c.gap, nextStepDown := price - c.gap })
            else if price ≥ c.nextStepUp then
              (0, { c with buysell := 1, nextStepUp := price + c.gap })
            else (0, c)
          else if c.buysell = 1 ∧ direction = 1 ∧ price - c.low ≥ c.lower_limit then
            (c.safetyamount, { c with buysell := 0 })
          else (0, c)

/-- Chasing.update(): append the tick to the histories; an unchanged price is
an immediate no-op; the first direction observation only records it; a
reversal records the pre-reversal price as the new local high/low; then the
mode/trend trade decision (Chasing.trade) runs on the updated state. -/
def Chasing.update (c0 : Chasing) (price : ℚ) (time : ℕ) : ℚ × Chasing :=
  let price0 := c0.prices.headI
  let c := { c0 with prices := price :: c0.prices, times := time :: c0.times }
  if price = price0 then (0, c)
  else
    let direction : ℤ := if price > price0 then 1 else -1
    if c.direction = 0 then (0, { c with direction := direction })
    else
      let c :=
        if c.direction > 0 ∧ direction < 0 then { c with high := price0 }
        else if c.direction < 0 ∧ direction > 0 then { c with low := price0 }
        else c
      let c := { c with direction := direction }
      c.trade direction price

/-- Feed a list of (price, time) ticks through Chasing.update, collecting the
emitted amounts in order together with the final state. -/
def Chasing.run (c : Chasing) (ticks : List (ℚ × ℕ)) : List ℚ × Chasing :=
  match ticks with
  | [] => ([], c)
  | tk :: rest =>
    let r := c.update tk.1 tk.2
    let rr := r.2.run rest
    (r.1 :: rr.1, rr.2)

/-- State of the TurningPoint subroutine (class TurningPoint). -/
structure TurningPoint where
  mode : String
  buysell : ℤ
  pt : ℚ
  prices : List ℚ
  times : List ℕ
  highs : List ℚ
  lows : List ℚ
  n_delta : ℚ
  h : ℚ
  gain : ℚ
  gains : List ℚ
  selling : ℚ
  buying : ℚ
  cnt : ℕ
  direction : ℤ
  high : ℚ
  low : ℚ
  deriving DecidableEq

/-- TurningPoint.__init__ for a supported mode string: buying and selling both
start at n, the gain ledger starts at 0. -/
def turningMk (price : ℚ) (time : ℕ) (mode : String) (buysell : ℤ)
    (n n_delta h : ℚ) : TurningPoint :=
  { mode := mode, buysell := buysell, pt := price,
    prices := [price], times := [time], highs := [], lows := [],
    n_delta := n_delta, h := h, gain := 0, gains := [],
    selling := n, buying := n, cnt := 0,
    direction := 0, high := -10000, low := 10000 }

/-- The adaptive step actually applied by TurningPoint after a nonzero trade:
the configured n_delta, replaced by int(gain/price) (truncation toward zero)
when n_delta exceeds gain/price, then clamped below at 0. -/
def tpStep (n_delta gain price : ℚ) : ℚ :=
  let nd0 : ℚ := if n_delta > gain / price then ((pyInt (gain / price) : ℤ) : ℚ) else n_delta
  if nd0 < 0 then 0 else nd0

/-- The trade-decision tail of TurningPoint.update(), applied to the state in
which the price/time histories, reversal extrema and direction have already
been recorded for this tick.  The adaptive block replaces n_delta by
int(gain / price) (truncation toward zero) when n_delta > gain / price,
clamps at 0, and adds it to buying and/or selling depending on mode. -/
def TurningPoint.trade (t0 : TurningPoint) (direction : ℤ) (price : ℚ) : ℚ × TurningPoint :=
  let r : ℚ × TurningPoint :=
    if t0.buysell = 1 ∧ direction = 1 ∧ price - t0.low ≥ t0.h then
      let amount := t0.buying
      (amount, { t0 with gain := t0.gain - amount * price, buysell := -1 })
    else if t0.buysell = -1 ∧ direction = -1 ∧ t0.high - price ≥ t0.h then
      let amount := -t0.selling
      (amount, { t0 with gain := t0.gain - amount * price, buysell := 1 })
    else (0, t0)
  let amount := r.1
  let t := { r.2 with gains := r.2.gain :: r.2.gains }
  if amount = 0 then (amount, t)
  else
    let t := { t with cnt := t.cnt + 1 }
    let nd : ℚ := tpStep t.n_delta t.gain price
    if t.mode = "increase" then (amount, { t with buying := t.buying + nd })
    else if t.mode = "decrease" then (amount, { t with selling := t.selling + nd })
    else (amount, { t with buying := t.buying + nd, selling := t.selling + nd })

/-- TurningPoint.update(): append the tick to the histories; an unchanged
price is an immediate no-op; the first direction observation only records it;
a reversal records the pre-reversal price as the new local high/low; then the
trade decision (TurningPoint.trade) runs on the updated state. -/
def TurningPoint.update (t0 : TurningPoint) (price : ℚ) (time : ℕ) : ℚ × TurningPoint :=
  let price0 := t0.prices.headI
  let t := { t0 with prices := price :: t0.prices, times := time :: t0.times }
  if price = price0 then (0, t)
  else
    let direction : ℤ := if price > price0 then 1 else -1
    if t.direction = 0 then (0, { t with direction := direction })
    else
      let t :=
        if t.direction > 0 ∧ direction < 0 then
          { t with high := price0, highs := price0 :: t.highs }
        else if t.direction < 0 ∧ direction > 0 then
          { t with low := price0, lows := price0 :: t.lows }
        else t
      let t := { t with direction := direction }
      t.trade direction price

/-- Feed a list of (price, time) ticks through TurningPoint.update, collecting
the emitted amounts in order together with the final state. -/
def TurningPoint.run (t : TurningPoint) (ticks : List (ℚ × ℕ)) : List ℚ × TurningPoint :=
  match ticks with
  | [] => ([], t)
  | tk :: rest =>
    let r := t.update tk.1 tk.2
    let rr := r.2.run rest
    (r.1 :: rr.1, rr.2)

/-- State of the orchestrator (class PrototypeStrategyI).  The fields
winningPer .. sellingPerLose hold the effective percentage parameters drawn
from the coerced kwargs (or the ThresholdControl defaults), which the
orchestrator reuses whenever it reconstructs its ThresholdControl. -/
structure PrototypeStrategyI where
  mode : String
  fund : ℚ
  unit : ℚ
  total0 : ℚ
  unitInit : ℚ
  ts : List ℕ
  funds : List ℚ
  units : List ℚ
  gains : List ℚ
  orders : List (ℕ × ℚ × ℚ × String)
  prices : List ℚ
  winningPer : ℚ
  losingPer : ℚ
  sellingPerWin : ℚ
  sellingPerLose : ℚ
  ThresholdControlRoutine : ThresholdControl
  ChasingRoutine : Chasing
  TurningPointRoutine : TurningPoint
  deriving DecidableEq

/-- PrototypeStrategyI.transact(n, src): clips to fund / price and zeroes fund
when fund - price * n ≤ 0, otherwise debits price * n and credits n; always
appends one order record (time, price, n, src). -/
def PrototypeStrategyI.transact (s : PrototypeStrategyI) (n : ℚ) (src : String)
    (price : ℚ) (time : ℕ) : PrototypeStrategyI :=
  if s.fund - price * n ≤ 0 then
    let newn := s.fund / price
    { s with unit := s.unit + newn, fund := 0,
             orders := (time, price, n, src) :: s.orders }
  else
    { s with fund := s.fund - price * n, unit := s.unit + n,
             orders := (time, price, n, src) :: s.orders }

/-- The history bookkeeping at the top of PrototypeStrategyI.update. -/
def PrototypeStrategyI.logTick (s : PrototypeStrategyI) (price : ℚ) (time : ℕ) :
    PrototypeStrategyI :=
  { s with ts := time :: s.ts, prices := price :: s.prices,
           funds := s.fund :: s.funds, units := s.unit :: s.units,
           gains := (s.fund + s.unit * price - s.total0) :: s.gains }

/-- The primary proposal step of PrototypeStrategyI.update: ChasingRoutine in
chase mode, TurningPointRoutine otherwise. -/
def PrototypeStrategyI.primary (s : PrototypeStrategyI) (price : ℚ) (time : ℕ) :
    ℚ × PrototypeStrategyI :=
  if s.mode = "chase" then
    let r := s.ChasingRoutine.update price time
    (r.1, { s with ChasingRoutine := r.2 })
  else
    let r := s.TurningPointRoutine.update price time
    (r.1, { s with TurningPointRoutine := r.2 })

/-- PrototypeStrategyI.update(): log histories, get the primary proposal n,
pass (fund, n) to ThresholdControl; on a zero override execute n (source tag
= mode) when n ≠ 0, otherwise execute the override with source tag
"thresholdcontrol" and reconstruct ThresholdControl from the post-trade
fund / unit. -/
def PrototypeStrategyI.update (s : PrototypeStrategyI) (price : ℚ) (time : ℕ) :
    PrototypeStrategyI :=
  let s1 := s.logTick price time
  let p := s1.primary price time
  let n := p.1
  let s2 := p.2
  let r := s2.ThresholdControlRoutine.update s2.fund n price time
  let n2 := r.1
  let s3 := { s2 with ThresholdControlRoutine := r.2 }
  if n2 = 0 then
    if n ≠ 0 then s3.transact n s.mode price time else s3
  else
    let s4 := s3.transact n2 "thresholdcontrol" price time
    { s4 with ThresholdControlRoutine :=
        (tcOf price time s4.fund s4.unit s.winningPer s.losingPer
          s.sellingPerWin s.sellingPerLose) }

/-- A concrete orchestrator state used to witness the transact claim. -/
def stratC1 : PrototypeStrategyI :=
  { mode := "chase", fund := 100, unit := 0, total0 := 100, unitInit := 0,
    ts := [], funds := [], units := [], gains := [], orders := [], prices := [],
    winningPer := 2/5, losingPer := 1/5, sellingPerWin := 1/2, sellingPerLose := 1,
    ThresholdControlRoutine := tcOf 100 0 100 0 (2/5) (1/5) (1/2) 1,
    ChasingRoutine := chasingMk 100 0 0 1 "chase" 5 1 (1/2) 50 10 20,
    TurningPointRoutine := turningMk 100 0 "increase" (-1) 10 1 1 }

/-- C1: from a state with fund ≥ 0 and price > 0, transact never leaves fund
negative; when fund - price*n ≤ 0 the executed quantity is clipped to exactly
fund/price (credited to unit) and fund becomes exactly 0; otherwise fund is
debited by price*n and unit credited by n; in every case exactly one order
record is appended. -/
theorem C1_transact_never_negative (s : PrototypeStrategyI) (n price : ℚ)
    (src : String) (time : ℕ) (hf : 0 ≤ s.fund) (hp : 0 < price) :
    0 ≤ (s.transact n src price time).fund ∧
    (s.fund - price * n ≤ 0 →
      (s.transact n src price time).unit = s.unit + s.fund / price ∧
      (s.transact n src price time).fund = 0) ∧
    (¬ s.fund - price * n ≤ 0 →
      (s.transact n src price time).fund = s.fund - price * n ∧
      (s.transact n src price time).unit = s.unit + n) ∧
    (s.transact n src price time).orders = (time, price, n, src) :: s.orders := by
  unfold PrototypeStrategyI.transact
  split_ifs with h
  · exact ⟨le_refl 0, fun _ => ⟨rfl, rfl⟩, fun hc => absurd h hc, rfl⟩
  · refine ⟨?_, fun hc => absurd hc h, fun _ => ⟨rfl, rfl⟩, rfl⟩
    show (0 : ℚ) ≤ s.fund - price * n
    linarith [not_le.mp h]

/-- Witness for C1: a buy of 100 units at price 2 against a fund of 100 is
clipped, leaving fund exactly 0. -/
theorem C1_transact_witness :
    0 ≤ (stratC1.transact 100 "other" 2 5).fund ∧
    (stratC1.transact 100 "other" 2 5).fund = 0 ∧
    (stratC1.transact 100 "other" 2 5).unit = stratC1.unit + stratC1.fund / 2 := by
  have h := C1_transact_never_negative stratC1 100 2 "other" 5 (by with_unfolding_all decide) (by with_unfolding_all decide)
  exact ⟨h.1, (h.2.1 (by with_unfolding_all decide)).2, (h.2.1 (by with_unfolding_all decide)).1⟩

/-- C5: chase mode, trend +1, gap 5, upper_limit 1, init 50, inc 10, stack 0,
constructed at price 100 (nextStepUp 105): the price path 102, 104, 106, 111
emits exactly one nonzero amount, a buy of 50 at the tick where price reaches
nextStepUp + upper_limit; there the buy equals max(0, init - stack*inc),
nextStepUp advances to price + gap, the armed flag clears, and stack ends
at 1. -/
theorem C5_chase_path :
    (let c0 := chasingMk 100 0 0 1 "chase" 5 1 (1/2) 50 10 20
     let r := c0.run [(102, 1), (104, 2), (106, 3), (111, 4)]
     let s2 := (c0.run [(102, 1), (104, 2)]).2
     let r3 := s2.update 106 3
     c0.nextStepUp = 105 ∧
     r.1 = [0, 0, 50, 0] ∧ r.2.stack = 1 ∧
     s2.nextStepUp + s2.upper_limit ≤ 106 ∧
     r3.1 = max 0 (s2.init - (s2.stack : ℚ) * s2.inc) ∧ r3.1 = 50 ∧
     r3.2.nextStepUp = 106 + s2.gap ∧ r3.2.buysell = 0 ∧ r3.2.stack = 1) := by
  with_unfolding_all decide

/-- Counterexample for C6: in safety mode with trend +1, arming via the fall
to nextStepDown (price 94 ≤ 95) resets only nextStepDown; nextStepUp stays at
105 instead of being reset to price + gap = 99 as the claim states. -/
theorem C6_counterexample :
    (let c0 := chasingMk 100 0 0 1 "safety" 5 1 (1/2) 50 10 20
     let r := c0.run [(99, 1), (94, 2)]
     (94 : ℚ) ≤ c0.nextStepDown ∧ ¬ (94 : ℚ) ≥ c0.nextStepUp ∧
     r.1 = [0, 0] ∧ r.2.buysell = -1 ∧
     r.2.nextStepDown = 94 - c0.gap ∧
     r.2.nextStepUp = 105 ∧ ¬ r.2.nextStepUp = 94 + c0.gap) := by
  with_unfolding_all decide

/-- Counterexample for C7: with configured n_delta = 2.5 and post-debit gain
270 at price 100 (gain/price = 2.7), the code adds the non-integer n_delta
itself, making buying 5.2, not the claimed
max(0, min(n_delta, floor(gain/price))) = 2 (which would make buying 4.7). -/
theorem C7_counterexample :
    (let t0 := turningMk 100 0 "increase" (-1) (27/10) (5/2) 1
     let r := (t0.update 101 1).2.update 100 2
     r.1 = -(27/10) ∧ r.2.gain = 270 ∧ r.2.buying = 26/5 ∧
     ¬ r.2.buying = 27/10 + max 0 (min (5/2) ((⌊(270 : ℚ) / 100⌋ : ℤ) : ℚ))) := by
  with_unfolding_all decide

/-- Counterexample for C4: with winningPer = 0.4 and losingPer = 0 (both in
[0,1]) and a call whose gain is exactly 0 with unit = 5 ≠ 0, the update takes
the losing branch (returning -5), not the winning branch. -/
theorem C4_counterexample :
    (let tc := tcOf 100 0 1000 0 (2/5) 0 (1/2) 1
     tc.winningPer = 2/5 ∧ (0 : ℚ) ≤ 2/5 ∧ (2/5 : ℚ) ≤ 1 ∧
     tc.losingPer = 0 ∧ (0 : ℚ) ≤ 0 ∧ (0 : ℚ) ≤ 1 ∧
     500 + (tc.units.headI + 5) * 100 - tc.total0 = 0 ∧
     tc.branch 500 5 100 = TCBranch.losing ∧
     ¬ tc.branch 500 5 100 = TCBranch.winning ∧
     (tc.update 500 5 100 1).1 = -5) := by
  with_unfolding_all decide

/-- Counterexample for C9: constructing ThresholdControl with
winningPer = -1 (outside [0,1]) succeeds, so construction is not restricted
to parameters in [0,1]. -/
theorem C9_counterexample :
    (tcMk 100 0 1000 0 (-1) (1/5) (1/2) 1).isSome = true ∧ ¬ (0 : ℚ) ≤ -1 := by
  with_unfolding_all decide

/-- C9 (amended): ThresholdControl construction succeeds exactly when all four
percentage parameters are ≤ 1; any parameter > 1 is a construction-time
error, but values below 0 are accepted (no lower-bound check exists). -/
theorem C9_validation (price : ℚ) (time : ℕ) (fund unit wp lp spw spl : ℚ) :
    (tcMk price time fund unit wp lp spw spl).isSome = true ↔
      wp ≤ 1 ∧ lp ≤ 1 ∧ spw ≤ 1 ∧ spl ≤ 1 := by
  unfold tcMk
  split_ifs with h1 h2 h3
  · simp only [Option.isSome_none, Bool.false_eq_true, false_iff]
    exact fun h => absurd h.1 (not_le.mpr h1)
  · simp only [Option.isSome_none, Bool.false_eq_true, false_iff]
    exact fun h => absurd h.2.1 (not_le.mpr h2)
  · simp only [Option.isSome_none, Bool.false_eq_true, false_iff]
    rcases h3 with h3 | h3
    · exact fun h => absurd h.2.2.1 (not_le.mpr h3)
    · exact fun h => absurd h.2.2.2 (not_le.mpr h3)
  · simp only [Option.isSome_some, true_iff]
    push_neg at h1 h2 h3
    exact ⟨h1, h2, h3.1, h3.2⟩

/-- C3: when unit = last_unit + deltaUnit is nonzero and sellingPerWin is a
percentage (≥ 0), the winning branch triggers exactly when gain ≥ 0 and
gain/total0 ≥ winningPer (boundary inclusive), and the returned delta is
min(|unit|, |unit|*sellingPerWin) signed to move unit toward zero: negative
when unit > 0, positive when unit < 0. -/
theorem C3_winning_branch (tc : ThresholdControl) (fundIn deltaUnit price : ℚ) (time : ℕ)
    (hu : tc.units.headI + deltaUnit ≠ 0) (hs : 0 ≤ tc.sellingPerWin) :
    ((tc.branch fundIn deltaUnit price = TCBranch.winning) ↔
      (fundIn + (tc.units.headI + deltaUnit) * price - tc.total0 ≥ 0 ∧
       (fundIn + (tc.units.headI + deltaUnit) * price - tc.total0) / tc.total0 ≥
         tc.winningPer)) ∧
    ((fundIn + (tc.units.headI + deltaUnit) * price - tc.total0 ≥ 0 ∧
      (fundIn + (tc.units.headI + deltaUnit) * price - tc.total0) / tc.total0 ≥
        tc.winningPer) →
      (0 < tc.units.headI + deltaUnit →
        (tc.update fundIn deltaUnit price time).1 =
          -(min |tc.units.headI + deltaUnit| (|tc.units.headI + deltaUnit| * tc.sellingPerWin)) ∧
        (tc.update fundIn deltaUnit price time).1 ≤ 0) ∧
      (tc.units.headI + deltaUnit < 0 →
        (tc.update fundIn deltaUnit price time).1 =
          min |tc.units.headI + deltaUnit| (|tc.units.headI + deltaUnit| * tc.sellingPerWin) ∧
        0 ≤ (tc.update fundIn deltaUnit price time).1)) := by
  have hmin : 0 ≤ min |tc.units.headI + deltaUnit|
      (|tc.units.headI + deltaUnit| * tc.sellingPerWin) :=
    le_min (abs_nonneg _) (mul_nonneg (abs_nonneg _) hs)
  constructor
  · simp only [ThresholdControl.branch]
    split_ifs with h0 h1 h2
    · exact absurd h0 hu
    · exact iff_of_true rfl h1
    · exact iff_of_false (by decide) h1
    · exact iff_of_false (by decide) h1
  · rintro ⟨hg, hw⟩
    simp only [ThresholdControl.update]
    rw [if_neg (by simpa using hu), if_pos (by simpa using And.intro hg hw)]
    constructor
    · intro hpos
      rw [if_pos (by simpa using hpos)]
      constructor
      · simp only [ge_iff_le, min_def]
      · simp only [ge_iff_le, min_def] at hmin ⊢
        linarith
    · intro hneg
      rw [if_neg (by simp only [not_lt]; exact le_of_lt (by simpa using hneg))]
      constructor
      · simp only [ge_iff_le, min_def]
      · simp only [ge_iff_le, min_def] at hmin ⊢
        linarith

/-- A concrete ThresholdControl with total0 = 1000 and winningPer = 0.4 used
to witness the inclusive winning boundary. -/
def tcC3 : ThresholdControl := tcOf 100 0 1000 0 (2/5) (1/5) (1/2) 1

/-- Witness for C3: total0 = 1000, winningPer = 0.4, gain = exactly 400
(40 percent, the boundary) triggers the winning branch and sells
min(4, 4*0.5) = 2 units of the positive holding. -/
theorem C3_winning_witness :
    tcC3.branch 1000 4 100 = TCBranch.winning ∧
    (tcC3.update 1000 4 100 1).1 =
      -(min |tcC3.units.headI + 4| (|tcC3.units.headI + 4| * tcC3.sellingPerWin)) ∧
    (tcC3.update 1000 4 100 1).1 = -2 := by
  have h := C3_winning_branch tcC3 1000 4 100 1 (by with_unfolding_all decide)
    (by with_unfolding_all decide)
  have h2 := h.2 (by with_unfolding_all decide)
  have h3 := h2.1 (by with_unfolding_all decide)
  exact ⟨h.1.mpr (by with_unfolding_all decide), h3.1, by with_unfolding_all decide⟩

/-- C4 (amended): at gain exactly 0 with unit nonzero and total0 > 0, the
winning branch is taken iff winningPer ≤ 0 (its gain ≥ 0 test passes but its
gain/total0 ≥ winningPer test requires winningPer ≤ 0), and the losing branch
is taken iff winningPer > 0 and losingPer ≤ 0; with both percentages strictly
positive neither branch acts, so a zero gain does not always resolve to the
winning branch. -/
theorem C4_gain_zero_branches (tc : ThresholdControl) (fundIn deltaUnit price : ℚ)
    (hu : tc.units.headI + deltaUnit ≠ 0)
    (hg : fundIn + (tc.units.headI + deltaUnit) * price - tc.total0 = 0)
    (ht : 0 < tc.total0) :
    ((tc.branch fundIn deltaUnit price = TCBranch.winning) ↔ tc.winningPer ≤ 0) ∧
    ((tc.branch fundIn deltaUnit price = TCBranch.losing) ↔
      (0 < tc.winningPer ∧ tc.losingPer ≤ 0)) := by
  simp only [ThresholdControl.branch]
  rw [if_neg (by simpa using hu)]
  rw [hg]
  simp only [zero_div, abs_zero, ge_iff_le, le_refl, true_and]
  split_ifs with h1 h2
  · exact ⟨iff_of_true rfl h1,
      iff_of_false (by decide) (fun hc => absurd h1 (not_le.mpr hc.1))⟩
  · exact ⟨iff_of_false (by decide) h1,
      iff_of_true rfl ⟨not_le.mp h1, h2⟩⟩
  · exact ⟨iff_of_false (by decide) h1,
      iff_of_false (by decide) (fun hc => absurd hc.2 h2)⟩

/-- A concrete ThresholdControl (total0 = 1000, winningPer = 0.4,
losingPer = 0) used to witness the gain = 0 branch analysis. -/
def tcC4w : ThresholdControl := tcOf 100 0 900 1 (2/5) 0 (1/2) 1

/-- Witness for C4 (amended): with winningPer = 0.4 > 0 and losingPer = 0,
a gain of exactly 0 takes the losing branch. -/
theorem C4_gain_zero_witness :
    tcC4w.branch 500 4 100 = TCBranch.losing := by
  have h := C4_gain_zero_branches tcC4w 500 4 100 (by with_unfolding_all decide)
    (by with_unfolding_all decide) (by with_unfolding_all decide)
  exact h.2.mpr ⟨by with_unfolding_all decide, by with_unfolding_all decide⟩

/-- The safety-mode, trend +1, idle arming behaviour of Chasing.trade:
reaching nextStepUp resets both thresholds, falling to nextStepDown resets
only nextStepDown, and no trade is emitted. -/
theorem Chasing.trade_safety_arm (c : Chasing) (direction : ℤ) (price : ℚ)
    (hm : c.mode = "safety") (htr : c.trend = 1) (hb : c.buysell = 0) :
    (c.trade direction price).1 = 0 ∧
    (price ≥ c.nextStepUp →
      (c.trade direction price).2.buysell = -1 ∧
      (c.trade direction price).2.nextStepUp = price + c.gap ∧
      (c.trade direction price).2.nextStepDown = price - c.gap) ∧
    (¬ price ≥ c.nextStepUp → price ≤ c.nextStepDown →
      (c.trade direction price).2.buysell = -1 ∧
      (c.trade direction price).2.nextStepDown = price - c.gap ∧
      (c.trade direction price).2.nextStepUp = c.nextStepUp) := by
  simp only [Chasing.trade, hm, htr, hb]
  rw [if_neg (show ¬("safety" = "chase") by decide), if_pos trivial, if_pos trivial]
  split_ifs with h1 h2
  · exact ⟨rfl, fun _ => ⟨rfl, rfl, rfl⟩, fun hc _ => absurd h1 hc⟩
  · exact ⟨rfl, fun hc => absurd hc h1, fun _ _ => ⟨rfl, rfl, rfl⟩⟩
  · exact ⟨rfl, fun hc => absurd hc h1, fun _ hc => absurd hc h2⟩

/-- C6 (amended): safety mode, trend +1, idle (buysell = 0), direction already
established, nonzero price move: reaching nextStepUp arms the pending sell and
resets BOTH thresholds around the price, but falling to nextStepDown arms the
pending sell and resets ONLY nextStepDown (nextStepUp keeps its old value);
no trade is emitted while arming. -/
theorem C6_safety_arming (c : Chasing) (price : ℚ) (time : ℕ)
    (hm : c.mode = "safety") (htr : c.trend = 1) (hb : c.buysell = 0)
    (hd : c.direction ≠ 0) (hp : price ≠ c.prices.headI) :
    (c.update price time).1 = 0 ∧
    (price ≥ c.nextStepUp →
      (c.update price time).2.buysell = -1 ∧
      (c.update price time).2.nextStepUp = price + c.gap ∧
      (c.update price time).2.nextStepDown = price - c.gap) ∧
    (¬ price ≥ c.nextStepUp → price ≤ c.nextStepDown →
      (c.update price time).2.buysell = -1 ∧
      (c.update price time).2.nextStepDown = price - c.gap ∧
      (c.update price time).2.nextStepUp = c.nextStepUp) := by
  simp only [Chasing.update]
  rw [if_neg hp, if_neg hd]
  split_ifs with h1 h2 <;>
    exact Chasing.trade_safety_arm _ _ _ hm htr hb

/-- A concrete safety-mode Chasing state (one tick past construction, so the
direction is established) used to witness the arming behaviour. -/
def chC6w : Chasing := ((chasingMk 100 0 0 1 "safety" 5 1 (1/2) 50 10 20).update 99 1).2

/-- Witness for C6 (amended): from price 100 via 99 to 94 (reaching
nextStepDown = 95), the pending sell arms, nextStepDown resets to 89, and
nextStepUp keeps its old value 105. -/
theorem C6_safety_witness :
    (chC6w.update 94 2).1 = 0 ∧
    (chC6w.update 94 2).2.buysell = -1 ∧
    (chC6w.update 94 2).2.nextStepDown = 94 - chC6w.gap ∧
    (chC6w.update 94 2).2.nextStepUp = chC6w.nextStepUp := by
  have h := C6_safety_arming chC6w 94 2 (by with_unfolding_all decide)
    (by with_unfolding_all decide) (by with_unfolding_all decide)
    (by with_unfolding_all decide) (by with_unfolding_all decide)
  have h2 := h.2.2 (by with_unfolding_all decide) (by with_unfolding_all decide)
  exact ⟨h.1, h2.1, h2.2.1, h2.2.2⟩

/-- Clamping below at zero is the same as a max with zero. -/
theorem ifNeg_eq_max (y : ℚ) : (if y < 0 then 0 else y) = max 0 y := by
  split_ifs with h
  · exact (max_eq_left h.le).symm
  · exact (max_eq_right (not_lt.mp h)).symm

/-- For an integer-valued n_delta, the adaptive step coincides with
max(0, min(n_delta, floor(gain/price))). -/
theorem tpStep_intCast (k : ℤ) (gain price : ℚ) :
    tpStep (k : ℚ) gain price = max 0 (min (k : ℚ) ((⌊gain / price⌋ : ℤ) : ℚ)) := by
  simp only [tpStep]
  rw [ifNeg_eq_max]
  by_cases hk : (k : ℚ) > gain / price
  · rw [if_pos hk]
    by_cases hx0 : (0 : ℚ) ≤ gain / price
    · simp only [pyInt, if_pos hx0]
      have hfk : ((⌊gain / price⌋ : ℤ) : ℚ) ≤ (k : ℚ) :=
        le_of_lt (lt_of_le_of_lt (Int.floor_le _) hk)
      rw [min_eq_right (by exact_mod_cast hfk)]
    · have hx : gain / price < 0 := not_le.mp hx0
      simp only [pyInt, if_neg hx0]
      have hceil : ((⌈gain / price⌉ : ℤ) : ℚ) ≤ 0 := by
        have hc : (⌈gain / price⌉ : ℤ) ≤ (0 : ℤ) := Int.ceil_le.mpr (by exact_mod_cast hx.le)
        exact_mod_cast hc
      have hfl : ((⌊gain / price⌋ : ℤ) : ℚ) ≤ 0 :=
        le_trans (Int.floor_le _) hx.le
      have hmin : min (k : ℚ) ((⌊gain / price⌋ : ℤ) : ℚ) ≤ 0 :=
        le_trans (min_le_right _ _) hfl
      rw [max_eq_left hceil, max_eq_left hmin]
  · have hk2 : (k : ℚ) ≤ gain / price := not_lt.mp hk
    rw [if_neg hk]
    have hmk : (k : ℚ) ≤ ((⌊gain / price⌋ : ℤ) : ℚ) := by
      exact_mod_cast Int.le_floor.mpr (by exact_mod_cast hk2)
    rw [min_eq_left hmk]

/-- After a nonzero trade, TurningPoint.trade debits the gain ledger by
amount*price and adds tpStep to buying (mode increase), selling (mode
decrease) or both (any other mode). -/
theorem TurningPoint.trade_adaptive (t : TurningPoint) (direction : ℤ) (price : ℚ)
    (h : (t.trade direction price).1 ≠ 0) :
    (t.mode = "increase" →
      (t.trade direction price).2.buying =
        t.buying + tpStep t.n_delta (t.trade direction price).2.gain price ∧
      (t.trade direction price).2.selling = t.selling) ∧
    (t.mode = "decrease" →
      (t.trade direction price).2.selling =
        t.selling + tpStep t.n_delta (t.trade direction price).2.gain price ∧
      (t.trade direction price).2.buying = t.buying) ∧
    (t.mode ≠ "increase" → t.mode ≠ "decrease" →
      (t.trade direction price).2.buying =
        t.buying + tpStep t.n_delta (t.trade direction price).2.gain price ∧
      (t.trade direction price).2.selling =
        t.selling + tpStep t.n_delta (t.trade direction price).2.gain price) ∧
    (t.trade direction price).2.gain = t.gain - (t.trade direction price).1 * price := by
  simp only [TurningPoint.trade] at h ⊢
  split_ifs at h ⊢ with h1 h2 h3 h4 h5 h6 h7 h8 h9 h10 h11 h12
  all_goals dsimp only at *
  all_goals try contradiction
  all_goals refine ⟨fun hm => ?_, fun hm => ?_, fun hm1 hm2 => ?_, ?_⟩
  all_goals try rfl
  all_goals try exact ⟨rfl, rfl⟩
  all_goals simp_all

/-- C7 (amended): after every TurningPoint.update tick that emits a nonzero
amount, the gain ledger has been debited by amount*price, and the step added
to buying (mode increase), selling (mode decrease) or both (mode size) is
tpStep: the configured n_delta, replaced by int(gain/price) (truncation
toward zero) only when n_delta > gain/price, clamped at 0.  When the
configured n_delta is an integer this equals
max(0, min(n_delta, floor(gain/price))), but a non-integer n_delta that does
not exceed gain/price is added as is, without flooring. -/
theorem C7_turning_adaptive (t : TurningPoint) (price : ℚ) (time : ℕ)
    (h : (t.update price time).1 ≠ 0) :
    (t.mode = "increase" →
      (t.update price time).2.buying =
        t.buying + tpStep t.n_delta (t.update price time).2.gain price ∧
      (t.update price time).2.selling = t.selling) ∧
    (t.mode = "decrease" →
      (t.update price time).2.selling =
        t.selling + tpStep t.n_delta (t.update price time).2.gain price ∧
      (t.update price time).2.buying = t.buying) ∧
    (t.mode ≠ "increase" → t.mode ≠ "decrease" →
      (t.update price time).2.buying =
        t.buying + tpStep t.n_delta (t.update price time).2.gain price ∧
      (t.update price time).2.selling =
        t.selling + tpStep t.n_delta (t.update price time).2.gain price) ∧
    ((t.update price time).2.gain = t.gain - (t.update price time).1 * price) ∧
    (∀ k : ℤ, t.n_delta = (k : ℚ) →
      tpStep t.n_delta (t.update price time).2.gain price =
        max 0 (min t.n_delta ((⌊(t.update price time).2.gain / price⌋ : ℤ) : ℚ))) := by
  simp only [TurningPoint.update] at h ⊢
  split_ifs at h ⊢ with h1 h2 h3 h4 h5
  all_goals try exact absurd rfl h
  all_goals
    exact ⟨(TurningPoint.trade_adaptive _ _ _ h).1,
      (TurningPoint.trade_adaptive _ _ _ h).2.1,
      (TurningPoint.trade_adaptive _ _ _ h).2.2.1,
      (TurningPoint.trade_adaptive _ _ _ h).2.2.2,
      fun k hk => by rw [hk]; exact tpStep_intCast k _ price⟩

/-- A concrete TurningPoint state (one tick past construction) about to emit
a sell, used to witness the adaptive-step formula. -/
def tpC7w : TurningPoint :=
  ((turningMk 100 0 "increase" (-1) (27/10) (5/2) 1).update 101 1).2

/-- Witness for C7 (amended): the tick at price 100 emits a nonzero trade and
buying is increased by exactly tpStep. -/
theorem C7_turning_witness :
    (tpC7w.update 100 2).2.buying =
      tpC7w.buying + tpStep tpC7w.n_delta (tpC7w.update 100 2).2.gain 100 ∧
    (tpC7w.update 100 2).2.selling = tpC7w.selling := by
  have h := C7_turning_adaptive tpC7w 100 2 (by with_unfolding_all decide)
  exact h.1 (by with_unfolding_all decide)

/-- Counterexample for C8: an identical-price tick is not state-free: Chasing
still appends the duplicate price and timestamp to its histories, so the
subroutine state changes even though no trade is emitted. -/
theorem C8_counterexample :
    (let c0 := chasingMk 100 0 0 1 "chase" 5 1 (1/2) 50 10 20
     (c0.update 100 1).1 = 0 ∧
     ¬ (c0.update 100 1).2 = c0 ∧
     (c0.update 100 1).2.prices = [100, 100] ∧ c0.prices = [100]) := by
  with_unfolding_all decide

/-- The value returned by ThresholdControl.update depends only on the
decision fields (last unit, total0 and the four percentages), not on the
histories or timestamps. -/
theorem ThresholdControl.update_result_congr (a b : ThresholdControl)
    (f d price : ℚ) (time time2 : ℕ)
    (hu : b.units.headI = a.units.headI) (ht : b.total0 = a.total0)
    (hw : b.winningPer = a.winningPer) (hl : b.losingPer = a.losingPer)
    (hsw : b.sellingPerWin = a.sellingPerWin) (hsl : b.sellingPerLose = a.sellingPerLose) :
    (b.update f d price time2).1 = (a.update f d price time).1 := by
  simp only [ThresholdControl.update]
  rw [hu, ht, hw, hl, hsw, hsl]
  split_ifs <;> rfl

/-- A ThresholdControl call with zero deltaUnit that returns 0 keeps every
decision field (last unit, total0, percentages) unchanged. -/
theorem ThresholdControl.update_zero_keeps (tc : ThresholdControl) (f price : ℚ) (time : ℕ)
    (h : (tc.update f 0 price time).1 = 0) :
    (tc.update f 0 price time).2.units.headI = tc.units.headI ∧
    (tc.update f 0 price time).2.total0 = tc.total0 ∧
    (tc.update f 0 price time).2.winningPer = tc.winningPer ∧
    (tc.update f 0 price time).2.losingPer = tc.losingPer ∧
    (tc.update f 0 price time).2.sellingPerWin = tc.sellingPerWin ∧
    (tc.update f 0 price time).2.sellingPerLose = tc.sellingPerLose := by
  simp only [ThresholdControl.update, List.headI_cons] at h ⊢
  split_ifs at h ⊢
  all_goals refine ⟨?_, rfl, rfl, rfl, rfl, rfl⟩
  all_goals dsimp only at h ⊢
  all_goals simp only [List.headI_cons]
  all_goals try rw [h]
  all_goals ring

/-- C8 (amended): a tick whose price equals the previous one makes Chasing
and TurningPoint return 0 and change nothing except appending the duplicate
(price, time) entry to their histories; ThresholdControl ignores price
repetition altogether, but when repeated with the same fund and zero
deltaUnit after a call that returned 0, it returns 0 again. -/
theorem C8_idempotent_ticks (c : Chasing) (t : TurningPoint) (tc : ThresholdControl)
    (f price : ℚ) (time : ℕ) :
    (price = c.prices.headI →
      c.update price time =
        (0, { c with prices := price :: c.prices, times := time :: c.times })) ∧
    (price = t.prices.headI →
      t.update price time =
        (0, { t with prices := price :: t.prices, times := time :: t.times })) ∧
    ((tc.update f 0 price time).1 = 0 →
      ((tc.update f 0 price time).2.update f 0 price time).1 = 0) := by
  refine ⟨fun hc => ?_, fun ht => ?_, fun htc => ?_⟩
  · simp only [Chasing.update]
    rw [if_pos hc]
  · simp only [TurningPoint.update]
    rw [if_pos ht]
  · have hk := ThresholdControl.update_zero_keeps tc f price time htc
    have hcg := ThresholdControl.update_result_congr tc ((tc.update f 0 price time).2)
      f 0 price time time hk.1 hk.2.1 hk.2.2.1 hk.2.2.2.1 hk.2.2.2.2.1 hk.2.2.2.2.2
    exact hcg.trans htc

/-- Concrete states for the idempotence witness. -/
def chC8w : Chasing := chasingMk 100 5 0 1 "chase" 5 1 (1/2) 50 10 20

/-- Concrete TurningPoint for the idempotence witness. -/
def tpC8w : TurningPoint := turningMk 100 5 "increase" (-1) 10 1 1

/-- Concrete ThresholdControl for the idempotence witness. -/
def tcC8w : ThresholdControl := tcOf 100 5 7 3 (2/5) (1/5) (1/2) 1

/-- Witness for C8 (amended): at a repeated price of 100 (and unchanged fund
7, zero delta), all three subroutines return 0. -/
theorem C8_idempotent_witness :
    (chC8w.update 100 6).1 = 0 ∧ (tpC8w.update 100 6).1 = 0 ∧
    ((tcC8w.update 7 0 100 6).2.update 7 0 100 6).1 = 0 := by
  have h := C8_idempotent_ticks chC8w tpC8w tcC8w 7 100 6
  refine ⟨?_, ?_, h.2.2 (by with_unfolding_all decide)⟩
  · rw [h.1 (by with_unfolding_all decide)]
  · rw [h.2.1 (by with_unfolding_all decide)]

/-- The primary proposal and intermediate state of PrototypeStrategyI.update
(histories logged, primary subroutine advanced). -/
def PrototypeStrategyI.primaryResult (s : PrototypeStrategyI) (price : ℚ) (time : ℕ) :
    ℚ × PrototypeStrategyI :=
  (s.logTick price time).primary price time

/-- The ThresholdControl override and successor instance computed by
PrototypeStrategyI.update from the pre-trade fund and the primary proposal. -/
def PrototypeStrategyI.tcResult (s : PrototypeStrategyI) (price : ℚ) (time : ℕ) :
    ℚ × ThresholdControl :=
  (s.primaryResult price time).2.ThresholdControlRoutine.update
    (s.primaryResult price time).2.fund (s.primaryResult price time).1 price time

/-- The post-trade state in the override branch of PrototypeStrategyI.update,
before the ThresholdControl instance is replaced. -/
def PrototypeStrategyI.overrideState (s : PrototypeStrategyI) (price : ℚ) (time : ℕ) :
    PrototypeStrategyI :=
  ({ (s.primaryResult price time).2 with
      ThresholdControlRoutine := (s.tcResult price time).2 }).transact
    (s.tcResult price time).1 "thresholdcontrol" price time

/-- C2: on each orchestrator tick, when ThresholdControl returns 0 and the
primary proposal n is nonzero, exactly n is transacted with source tag equal
to the mode; when ThresholdControl returns a nonzero override it is
transacted with source tag "thresholdcontrol" and the ThresholdControl
instance is replaced by a fresh one whose baseline total0 is the post-trade
fund + unit * current price. -/
theorem C2_orchestrator_dispatch (s : PrototypeStrategyI) (price : ℚ) (time : ℕ) :
    ((s.tcResult price time).1 = 0 → (s.primaryResult price time).1 ≠ 0 →
      s.update price time =
        ({ (s.primaryResult price time).2 with
            ThresholdControlRoutine := (s.tcResult price time).2 }).transact
          (s.primaryResult price time).1 s.mode price time) ∧
    ((s.tcResult price time).1 ≠ 0 →
      s.update price time =
        { s.overrideState price time with
            ThresholdControlRoutine :=
              (tcOf price time (s.overrideState price time).fund
                (s.overrideState price time).unit s.winningPer s.losingPer
                s.sellingPerWin s.sellingPerLose) } ∧
      (s.update price time).ThresholdControlRoutine.total0 =
        (s.overrideState price time).fund +
          (s.overrideState price time).unit * price) := by
  simp only [PrototypeStrategyI.update, PrototypeStrategyI.overrideState,
    PrototypeStrategyI.tcResult, PrototypeStrategyI.primaryResult]
  split_ifs with h1 h2
  · exact ⟨fun _ _ => rfl, fun hnz => absurd h1 hnz⟩
  · exact ⟨fun _ hn => absurd hn h2, fun hnz => absurd h1 hnz⟩
  · exact ⟨fun h0 => absurd h0 h1, fun _ => ⟨rfl, rfl⟩⟩

/-- transact changes only fund, unit and orders: it appends exactly one order
record and leaves both primary subroutines untouched. -/
theorem PrototypeStrategyI.transact_orders (s : PrototypeStrategyI) (n : ℚ) (src : String)
    (price : ℚ) (time : ℕ) :
    (s.transact n src price time).orders = (time, price, n, src) :: s.orders ∧
    (s.transact n src price time).ChasingRoutine = s.ChasingRoutine ∧
    (s.transact n src price time).TurningPointRoutine = s.TurningPointRoutine := by
  unfold PrototypeStrategyI.transact
  split_ifs <;> exact ⟨rfl, rfl, rfl⟩

/-- The primary step advances exactly the dispatched subroutine and leaves
fund, unit, mode and the order log unchanged. -/
theorem PrototypeStrategyI.primary_frame (s : PrototypeStrategyI) (price : ℚ) (time : ℕ) :
    (s.primary price time).2.orders = s.orders ∧
    (s.primary price time).2.fund = s.fund ∧
    (s.primary price time).2.unit = s.unit ∧
    (s.primary price time).2.mode = s.mode ∧
    (s.mode = "chase" →
      (s.primary price time).2.ChasingRoutine = (s.ChasingRoutine.update price time).2) ∧
    (s.mode ≠ "chase" →
      (s.primary price time).2.ChasingRoutine = s.ChasingRoutine ∧
      (s.primary price time).2.TurningPointRoutine =
        (s.TurningPointRoutine.update price time).2) ∧
    (s.mode = "chase" →
      (s.primary price time).2.TurningPointRoutine = s.TurningPointRoutine) := by
  unfold PrototypeStrategyI.primary
  split_ifs with hm
  · exact ⟨rfl, rfl, rfl, rfl, fun _ => rfl, fun hn => absurd hm hn, fun _ => rfl⟩
  · exact ⟨rfl, rfl, rfl, rfl, fun hc => absurd hc hm, fun _ => ⟨rfl, rfl⟩,
      fun hc => absurd hc hm⟩

/-- C10: on a tick where ThresholdControl returns a nonzero override, exactly
one order is appended and it is tagged "thresholdcontrol" (the primary
proposal n is never transacted), while the primary subroutine keeps the state
its own update already produced this tick: nothing is rolled back after the
veto. -/
theorem C10_override_frame (s : PrototypeStrategyI) (price : ℚ) (time : ℕ)
    (h : (s.tcResult price time).1 ≠ 0) :
    (s.update price time).orders =
      (time, price, (s.tcResult price time).1, "thresholdcontrol") :: s.orders ∧
    (s.mode = "chase" →
      (s.update price time).ChasingRoutine = (s.ChasingRoutine.update price time).2) ∧
    (s.mode ≠ "chase" →
      (s.update price time).TurningPointRoutine =
        (s.TurningPointRoutine.update price time).2) := by
  have hp := PrototypeStrategyI.primary_frame (s.logTick price time) price time
  have horders := PrototypeStrategyI.transact_orders
    ({ (s.primaryResult price time).2 with
        ThresholdControlRoutine := (s.tcResult price time).2 })
    (s.tcResult price time).1 "thresholdcontrol" price time
  have hupd : s.update price time =
      { s.overrideState price time with
          ThresholdControlRoutine :=
            (tcOf price time (s.overrideState price time).fund
              (s.overrideState price time).unit s.winningPer s.losingPer
              s.sellingPerWin s.sellingPerLose) } := by
    simp only [PrototypeStrategyI.update, PrototypeStrategyI.overrideState,
      PrototypeStrategyI.tcResult, PrototypeStrategyI.primaryResult] at h ⊢
    rw [if_neg h]
  rw [hupd]
  refine ⟨?_, fun hm => ?_, fun hm => ?_⟩
  · show (s.overrideState price time).orders = _
    unfold PrototypeStrategyI.overrideState
    rw [horders.1]
    show ((time, price, (s.tcResult price time).1, "thresholdcontrol") :
        ℕ × ℚ × ℚ × String) :: (s.primaryResult price time).2.orders = _
    unfold PrototypeStrategyI.primaryResult
    rw [hp.1]
    rfl
  · show (s.overrideState price time).ChasingRoutine = _
    unfold PrototypeStrategyI.overrideState
    rw [horders.2.1]
    show (s.primaryResult price time).2.ChasingRoutine = _
    unfold PrototypeStrategyI.primaryResult
    exact hp.2.2.2.2.1 hm
  · show (s.overrideState price time).TurningPointRoutine = _
    unfold PrototypeStrategyI.overrideState
    rw [horders.2.2]
    show (s.primaryResult price time).2.TurningPointRoutine = _
    unfold PrototypeStrategyI.primaryResult
    exact (hp.2.2.2.2.2.1 hm).2

/-- A Chasing state primed to confirm a buy of 50 at price 106. -/
def chC2w : Chasing :=
  { mode := "chase", trend := 1, prices := [104, 102, 100], times := [2, 1, 0], total := 0,
    direction := 1, high := -10000, low := 10000, init := 50, inc := 10, safetyamount := 20,
    stack := 0, buysell := 0, upper_limit := 1, lower_limit := 1/2, gap := 5,
    nextStepUp := 105, nextStepDown := 95 }

/-- Orchestrator state whose next tick at 106 has a nonzero primary proposal
and a zero ThresholdControl override. -/
def stratC2a : PrototypeStrategyI :=
  { mode := "chase", fund := 1000, unit := 0, total0 := 1000, unitInit := 0,
    ts := [], funds := [], units := [], gains := [], orders := [], prices := [],
    winningPer := 2/5, losingPer := 1/5, sellingPerWin := 1/2, sellingPerLose := 1,
    ThresholdControlRoutine :=
      { prices := [104], funds := [1000], units := [0], total0 := 6300, times := [2],
        winningPer := 2/5, losingPer := 1/5, sellingPerWin := 1/2, sellingPerLose := 1 },
    ChasingRoutine := chC2w,
    TurningPointRoutine := turningMk 100 0 "increase" (-1) 10 1 1 }

/-- Orchestrator state whose next tick at 50 has a zero primary proposal and
a nonzero ThresholdControl override (-5). -/
def stratC2b : PrototypeStrategyI :=
  { mode := "chase", fund := 0, unit := 10, total0 := 500, unitInit := 0,
    ts := [], funds := [], units := [], gains := [], orders := [], prices := [],
    winningPer := 2/5, losingPer := 1/5, sellingPerWin := 1/2, sellingPerLose := 1,
    ThresholdControlRoutine :=
      { prices := [50], funds := [0], units := [10], total0 := 100, times := [0],
        winningPer := 2/5, losingPer := 1/5, sellingPerWin := 1/2, sellingPerLose := 1 },
    ChasingRoutine := chasingMk 50 0 0 1 "chase" 5 1 (1/2) 50 10 20,
    TurningPointRoutine := turningMk 50 0 "increase" (-1) 10 1 1 }

set_option maxRecDepth 8000 in
/-- Witness for C2: a mode-tagged order for the primary proposal on a zero
override; a "thresholdcontrol" order plus a rebased ThresholdControl (total0
= post-trade fund + unit*price) on a nonzero override. -/
theorem C2_orchestrator_witness :
    (stratC2a.update 106 3).orders = [(3, 106, 50, "chase")] ∧
    (stratC2b.update 50 9).orders = [(9, 50, -5, "thresholdcontrol")] ∧
    (stratC2b.update 50 9).ThresholdControlRoutine.total0 =
      (stratC2b.update 50 9).fund + (stratC2b.update 50 9).unit * 50 := by
  have hA := (C2_orchestrator_dispatch stratC2a 106 3).1 (by with_unfolding_all decide)
    (by with_unfolding_all decide)
  have hB := (C2_orchestrator_dispatch stratC2b 50 9).2 (by with_unfolding_all decide)
  refine ⟨?_, ?_, ?_⟩
  · rw [hA]
    with_unfolding_all decide
  · rw [hB.1]
    with_unfolding_all decide
  · rw [hB.1]
    with_unfolding_all decide

/-- Orchestrator state (own copy) whose next tick at 50 triggers a nonzero
ThresholdControl override, for the frame-effect witness. -/
def stratC10w : PrototypeStrategyI :=
  { mode := "chase", fund := 0, unit := 10, total0 := 500, unitInit := 0,
    ts := [], funds := [], units := [], gains := [], orders := [], prices := [],
    winningPer := 2/5, losingPer := 1/5, sellingPerWin := 1/2, sellingPerLose := 1,
    ThresholdControlRoutine :=
      { prices := [50], funds := [0], units := [10], total0 := 100, times := [0],
        winningPer := 2/5, losingPer := 1/5, sellingPerWin := 1/2, sellingPerLose := 1 },
    ChasingRoutine := chasingMk 50 0 0 1 "chase" 5 1 (1/2) 50 10 20,
    TurningPointRoutine := turningMk 50 0 "increase" (-1) 10 1 1 }

set_option maxRecDepth 8000 in
/-- Witness for C10: the override tick appends exactly the one
"thresholdcontrol" order and the Chasing state is the one its own update
produced. -/
theorem C10_override_witness :
    (stratC10w.update 50 9).orders =
      [(9, 50, (stratC10w.tcResult 50 9).1, "thresholdcontrol")] ∧
    (stratC10w.update 50 9).ChasingRoutine = (stratC10w.ChasingRoutine.update 50 9).2 := by
  have h := C10_override_frame stratC10w 50 9 (by with_unfolding_all decide)
  exact ⟨h.1, h.2.1 (by with_unfolding_all decide)⟩
